import Mathlib

/-!
Verification of the time-audit storage-and-tracking core.

Shallow embedding of the repository's core modules:
  * `src/time_audit/core/models.py`    (Entry, ProcessRule, serialization)
  * `src/time_audit/core/storage.py`   (StorageManager: CSV collections, backup)
  * `src/time_audit/core/tracker.py`   (TimeTracker: start/stop/switch/...)
  * `src/time_audit/automation/rule_engine.py` (RuleEngine: match/learn)

Modelling conventions:
  * `datetime` values are modelled as natural numbers (datetimes are totally
    ordered; `isoformat` strings of a fixed format compare like the datetimes
    themselves, so sorting rows by the `start_time` string column agrees with
    sorting by timestamp).  `datetime.now()` is passed in explicitly as a
    `now` argument wherever the source calls it.
  * UUIDs are modelled as natural numbers; `uuid4()` is passed in explicitly
    as a `newId` argument (the claims never depend on the distribution of
    fresh ids, only on which rows are compared equal by id).
  * Python `float` confidence values are modelled as `Rat`; the claims about
    confidence only use `min`, `+ 0.1` and order, none of which depend on
    binary rounding for their truth here.
  * The Python standard-library regex engine (`re`) is external to this
    repository; it is modelled as an abstract search function that either
    raises (`.error`, modelling `re.error` for an invalid pattern) or returns
    whether the case-insensitive search found a match.
  * Exceptions are modelled with `Except`; an operation returns its result
    together with the post-state, and an operation that raises before writing
    returns the state it was given.
-/

namespace TimeAudit

/-- `Entry` dataclass from `core/models.py` (one work session). -/
structure Entry where
  task_name : String
  start_time : Nat
  id : Nat
  end_time : Option Nat := none
  project : Option String := none
  category : Option String := none
  tags : List String := []
  notes : Option String := none
  active_process : Option String := none
  active_window : Option String := none
  idle_time_seconds : Nat := 0
  manual_entry : Bool := false
  edited : Bool := false
  auto_tracked : Bool := false
  rule_id : Option String := none
  created_at : Nat := 0
  updated_at : Nat := 0
  deriving Repr, DecidableEq

/-- `Entry.is_running` property: `end_time is None`. -/
def Entry.is_running (e : Entry) : Bool := e.end_time.isNone

/-- `Entry.duration_seconds` property: `None` while running, else
`int((end_time - start_time).total_seconds())` (may be negative). -/
def Entry.duration_seconds (e : Entry) : Option Int :=
  match e.end_time with
  | none => none
  | some t => some ((t : Int) - (e.start_time : Int))

/-- `ProcessRule` dataclass from `core/models.py`. -/
structure ProcessRule where
  pattern : String
  task_name : String
  id : Nat
  project : Option String := none
  category : Option String := none
  tags : List String := []
  enabled : Bool := true
  learned : Bool := false
  confidence : Rat := 1
  match_count : Nat := 0
  created_at : Nat := 0
  deriving Repr, DecidableEq

/-- Model of the external Python `re` collaborator: `re.search(pattern, name,
re.IGNORECASE)` either raises `re.error` (the `.error` case, e.g. for an
uncompilable pattern) or reports whether the case-insensitive search matched.
The rule-engine claims are about rule priority and error handling, which hold
for every such search function; concrete instances are used for witnesses. -/
def ReSearch : Type := String → String → Except Unit Bool

/-- `ProcessRule.matches` from `core/models.py` lines 251-266:
`re.search(self.pattern, process_name, re.IGNORECASE)` inside
`try: ... except re.error: return False`. -/
def ProcessRule.matches (re : ReSearch) (r : ProcessRule) (process_name : String) : Bool :=
  match re r.pattern process_name with
  | .ok b => b
  | .error _ => false

/-! ### Storage engine (`core/storage.py`)

A collection file is modelled as the list of its rows in file order. -/

/-- The save-or-update pattern shared by `save_entry` / `save_rule`
(`core/storage.py`): scan the rows, replace the first row whose id equals the
saved item's id, append if no row matches. -/
def saveById {α : Type} (getId : α → Nat) : List α → α → List α
  | [], r => [r]
  | x :: xs, r => if getId x = getId r then r :: xs else x :: saveById getId xs r

/-- Descending comparison on `start_time` used by `load_entries`:
`rows.sort(key=lambda r: r["start_time"], reverse=True)` (Python's sort is
stable; with `reverse=True` rows with equal keys keep file order, matching a
stable insertion sort under this relation). -/
def entryDescLe (a b : Entry) : Prop := b.start_time ≤ a.start_time

instance : DecidableRel entryDescLe := fun _ _ => Nat.decLe _ _

/-- `StorageManager.load_entries` (`core/storage.py` lines 273-290): read all
rows, sort by `start_time` descending, then `if limit: rows = rows[:limit]`
(note `limit=0` is falsy in Python, so a zero limit does not truncate). -/
def loadEntries (entries : List Entry) (limit : Option Nat) : List Entry :=
  let rows := entries.insertionSort entryDescLe
  match limit with
  | none => rows
  | some l => if l = 0 then rows else rows.take l

/-- `StorageManager.get_current_entry` (`core/storage.py` lines 339-349):
first loaded entry with `is_running`. -/
def getCurrentEntry (entries : List Entry) : Option Entry :=
  (loadEntries entries none).find? Entry.is_running

/-- `StorageManager.save_entry` (`core/storage.py` lines 242-271): sets
`entry.updated_at = datetime.now()` and rewrites the file with the entry
replacing the first row of equal id, appended if absent. -/
def saveEntry (entries : List Entry) (e : Entry) (now : Nat) : List Entry :=
  saveById Entry.id entries { e with updated_at := now }

/-- `StorageManager.delete_entry` (`core/storage.py` lines 292-337): drop rows
with the given id; report whether anything was removed. -/
def deleteEntry (entries : List Entry) (entry_id : Nat) : Bool × List Entry :=
  let kept := entries.filter (fun e => e.id ≠ entry_id)
  if kept.length = entries.length then (false, entries) else (true, kept)

/-- `StorageManager.load_rules` (`core/storage.py` lines 492-507). -/
def loadRules (rules : List ProcessRule) (enabled_only : Bool) : List ProcessRule :=
  if enabled_only then rules.filter (fun r => r.enabled) else rules

/-- `StorageManager.save_rule` (`core/storage.py` lines 457-490): same
replace-first-by-id-or-append pattern as `save_entry`. -/
def saveRule (rules : List ProcessRule) (r : ProcessRule) : List ProcessRule :=
  saveById ProcessRule.id rules r

/-- The four data files of a `StorageManager`, `none` when the file does not
exist on disk (`core/storage.py` lines 62-85). -/
structure DataFiles where
  entries_file : Option String
  projects_file : Option String
  categories_file : Option String
  rules_file : Option String
  deriving Repr, DecidableEq

/-- `StorageManager.backup` (`core/storage.py` lines 219-238): the files
copied into the backup directory, as (file name, contents) pairs.  The source
iterates `for file in [self.entries_file, self.projects_file,
self.categories_file]` and copies each file that exists — `self.rules_file`
is not in that list. -/
def backupFiles (fs : DataFiles) : List (String × String) :=
  ([("entries.csv", fs.entries_file),
    ("projects.csv", fs.projects_file),
    ("categories.csv", fs.categories_file)]).filterMap
    (fun nc => nc.2.map (fun c => (nc.1, c)))

/-! ### Time tracker (`core/tracker.py`)

Each operation takes the stored entry rows and returns `(result, post-state)`;
a raised `ValueError` is the `.error` case and, when raised before any write,
the post-state is the input state. -/

/-- The `ValueError` kinds raised by `TimeTracker`, following the spec's error
taxonomy names. -/
inductive TrackerError where
  | alreadyTracking
  | notTracking
  | invalidRange
  | notFound
  deriving Repr, DecidableEq

/-- `TimeTracker.start` (`core/tracker.py` lines 21-63): raise if an entry is
running, else create and persist a new running entry. -/
def TimeTracker.start (s : List Entry) (task_name : String)
    (project category : Option String) (tags : Option (List String))
    (notes : Option String) (now newId : Nat) :
    Except TrackerError Entry × List Entry :=
  match getCurrentEntry s with
  | some _ => (.error .alreadyTracking, s)
  | none =>
    let entry : Entry :=
      { task_name := task_name, start_time := now, id := newId,
        project := project, category := category, tags := tags.getD [],
        notes := notes, created_at := now, updated_at := now }
    (.ok entry, saveEntry s entry now)

/-- `TimeTracker.stop` (`core/tracker.py` lines 65-88): raise if idle, else
set `end_time = now` on the current entry (`if notes: current.notes = notes`,
where `None` and the empty string are falsy) and persist it. -/
def TimeTracker.stop (s : List Entry) (notes : Option String) (now : Nat) :
    Except TrackerError Entry × List Entry :=
  match getCurrentEntry s with
  | none => (.error .notTracking, s)
  | some current =>
    let stopped : Entry :=
      { current with
        end_time := some now,
        notes := match notes with
          | some n => if n = "" then current.notes else some n
          | none => current.notes,
        updated_at := now }
    (.ok stopped, saveEntry s stopped now)

/-- `TimeTracker.switch` (`core/tracker.py` lines 90-121): `stop()` with the
`ValueError` swallowed (`except ValueError: pass`), then `start()`; an error
from `start` propagates (after the stop, if any, was already persisted). -/
def TimeTracker.switch (s : List Entry) (task_name : String)
    (project category : Option String) (tags : Option (List String))
    (notes : Option String) (now₁ now₂ newId : Nat) :
    Except TrackerError (Option Entry × Entry) × List Entry :=
  let stopRes := TimeTracker.stop s none now₁
  let stopped : Option Entry := stopRes.1.toOption
  let s₁ := stopRes.2
  match TimeTracker.start s₁ task_name project category tags notes now₂ newId with
  | (.ok e, s₂) => (.ok (stopped, e), s₂)
  | (.error err, s₂) => (.error err, s₂)

/-- `TimeTracker.add_manual_entry` (`core/tracker.py` lines 143-185): raise
`InvalidRange` when `end_time <= start_time`, else create and persist a
completed entry with `manual_entry=True`. -/
def TimeTracker.add_manual_entry (s : List Entry) (task_name : String)
    (start_time end_time : Nat) (project category : Option String)
    (tags : Option (List String)) (notes : Option String) (now newId : Nat) :
    Except TrackerError Entry × List Entry :=
  if end_time ≤ start_time then (.error .invalidRange, s)
  else
    let entry : Entry :=
      { task_name := task_name, start_time := start_time,
        end_time := some end_time, id := newId,
        project := project, category := category, tags := tags.getD [],
        notes := notes, manual_entry := true,
        created_at := now, updated_at := now }
    (.ok entry, saveEntry s entry now)

/-- Python truthiness of an `Optional[str]`: `None` and `""` are falsy. -/
def truthyStr : Option String → Bool
  | none => false
  | some s => s ≠ ""

/-- The per-entry filter of `TimeTracker.get_entries` (`core/tracker.py`
lines 209-226), with each `continue` turned into a conjunct: keep an entry
unless a provided (truthy) filter rejects it.  Date bounds are inclusive on
`start_time` in both directions. -/
def keepsEntry (project category : Option String)
    (start_date end_date : Option Nat) (e : Entry) : Bool :=
  !(truthyStr project && e.project ≠ project) &&
  !(truthyStr category && e.category ≠ category) &&
  !(match start_date with | some d => e.start_time < d | none => false) &&
  !(match end_date with | some d => d < e.start_time | none => false)

/-- `TimeTracker.get_entries` (`core/tracker.py` lines 187-228): load at most
`limit` most-recent entries via `storage.load_entries(limit=limit)`, then
filter in memory. -/
def TimeTracker.get_entries (s : List Entry) (limit : Option Nat)
    (project category : Option String)
    (start_date end_date : Option Nat) : List Entry :=
  (loadEntries s limit).filter (keepsEntry project category start_date end_date)

/-! ### Rule engine (`automation/rule_engine.py`) -/

/-- `RuleEngine` state: the stored rule rows (in `rules.csv` file order) plus
the in-memory `_rules_cache` (`None` until first populated). -/
structure RuleEngineState where
  rules : List ProcessRule
  cache : Option (List ProcessRule)
  deriving Repr, DecidableEq

/-- `RuleEngine._refresh_rules`: `self._rules_cache =
self.storage.load_rules(enabled_only=True)`. -/
def refreshRules (rules : List ProcessRule) : Option (List ProcessRule) :=
  some (loadRules rules true)

/-- Descending lexicographic comparison used by `match_process`:
`learned.sort(key=lambda r: (r.confidence, r.match_count), reverse=True)`
(stable, so rules with equal keys keep their cache order). -/
def learnedDescLe (a b : ProcessRule) : Prop :=
  b.confidence < a.confidence ∨
    (b.confidence = a.confidence ∧ b.match_count ≤ a.match_count)

instance : DecidableRel learnedDescLe := fun _ _ =>
  inferInstanceAs (Decidable (_ ∨ _))

instance : IsTotal ProcessRule learnedDescLe :=
  ⟨fun a b => by
    unfold learnedDescLe
    rcases lt_trichotomy b.confidence a.confidence with h | h | h
    · exact Or.inl (Or.inl h)
    · rcases Nat.le_total b.match_count a.match_count with h2 | h2
      · exact Or.inl (Or.inr ⟨h, h2⟩)
      · exact Or.inr (Or.inr ⟨h.symm, h2⟩)
    · exact Or.inr (Or.inl h)⟩

instance : IsTrans ProcessRule learnedDescLe :=
  ⟨fun a b c hab hbc => by
    unfold learnedDescLe at hab hbc ⊢
    rcases hab with h1 | ⟨h1, h1m⟩ <;> rcases hbc with h2 | ⟨h2, h2m⟩
    · exact Or.inl (lt_trans h2 h1)
    · exact Or.inl (by rw [h2]; exact h1)
    · exact Or.inl (by rw [← h1]; exact h2)
    · exact Or.inr ⟨h2.trans h1, le_trans h2m h1m⟩⟩

/-- The claim's "enabled explicit rule whose pattern matches the name". -/
def explicitMatch (re : ReSearch) (pn : String) (r : ProcessRule) : Bool :=
  r.enabled && !r.learned && r.matches re pn

/-- The claim's "enabled learned rule whose pattern matches the name". -/
def learnedMatch (re : ReSearch) (pn : String) (r : ProcessRule) : Bool :=
  r.enabled && r.learned && r.matches re pn

/-- `RuleEngine.match_process` (`automation/rule_engine.py` lines 21-66):
return `None` for a falsy (empty) process name; populate the cache if unset;
split the enabled matching rules into non-learned and learned; return the
first non-learned match, else the best learned match (highest confidence,
then highest match count), else `None`. -/
def matchProcess (re : ReSearch) (s : RuleEngineState) (process_name : String) :
    Option ProcessRule × RuleEngineState :=
  if process_name = "" then (none, s)
  else
    let cache := match s.cache with
      | some c => c
      | none => loadRules s.rules true
    let s' : RuleEngineState := { s with cache := some cache }
    let matching := cache.filter
      (fun r => r.enabled && r.matches re process_name)
    let non_learned := matching.filter (fun r => !r.learned)
    let learned := matching.filter (fun r => r.learned)
    match non_learned with
    | r :: _ => (some r, s')
    | [] =>
      match learned.insertionSort learnedDescLe with
      | r :: _ => (some r, s')
      | [] => (none, s')

/-- `RuleEngine.learn_rule` (`automation/rule_engine.py` lines 68-121): if a
learned rule with `pattern == process_name` (exact string equality) exists,
update its fields, set `confidence = min(1.0, confidence + 0.1)`, increment
`match_count`, persist and refresh the cache; else create a new learned rule
with the given confidence (and the default `match_count = 0`). -/
def learnRule (s : RuleEngineState) (process_name task_name : String)
    (project category : Option String) (tags : Option (List String))
    (confidence : Rat) (newId : Nat) : ProcessRule × RuleEngineState :=
  match s.rules.find? (fun r => r.learned && r.pattern == process_name) with
  | some existing =>
    let updated : ProcessRule :=
      { existing with
        task_name := task_name, project := project, category := category,
        tags := tags.getD [],
        confidence := min 1 (existing.confidence + 1/10),
        match_count := existing.match_count + 1 }
    let rules' := saveRule s.rules updated
    (updated, { rules := rules', cache := refreshRules rules' })
  | none =>
    let new_rule : ProcessRule :=
      { pattern := process_name, task_name := task_name, id := newId,
        project := project, category := category, tags := tags.getD [],
        learned := true, confidence := confidence }
    let rules' := saveRule s.rules new_rule
    (new_rule, { rules := rules', cache := refreshRules rules' })

/-! ### Serialization (`core/models.py` `to_dict` / `from_dict`)

A Python dict value reaching `to_dict`/`from_dict` is a string, an int or a
bool (`csv.DictWriter` turns each value into `str(value)` on write and
`csv.DictReader` yields strings on read). -/

/-- A Python value stored in a serialization dict. -/
inductive PyVal where
  | str (s : String)
  | int (n : Int)
  | bool (b : Bool)
  deriving Repr, DecidableEq

/-- Python `str(value)` as applied by the CSV writer: strings unchanged, ints
in decimal, booleans as `"True"` / `"False"`. -/
def pyStr : PyVal → String
  | .str s => s
  | .int n => toString n
  | .bool b => if b then "True" else "False"

/-- Python truthiness (`if value:` / `bool(value)`): empty string, zero and
`False` are falsy, every other value is truthy.  In particular the string
`"False"` is truthy. -/
def pyTruthy : PyVal → Bool
  | .str s => s ≠ ""
  | .int n => n ≠ 0
  | .bool b => b

/-- Whitespace test used by Python `str.strip()`. -/
def isSpaceChar (c : Char) : Bool := c = ' ' || c = '\t' || c = '\n' || c = '\r'

/-- Python `str.strip()`: drop leading and trailing whitespace. -/
def pyStrip (s : String) : String :=
  String.mk (((s.data.dropWhile isSpaceChar).reverse.dropWhile isSpaceChar).reverse)

/-- Python `str.split(",")` on the character list: split at every comma,
keeping empty pieces (so `"".split(",") == [""]`). -/
def splitCommaChars : List Char → List (List Char)
  | [] => [[]]
  | c :: cs =>
    if c = ',' then [] :: splitCommaChars cs
    else
      match splitCommaChars cs with
      | g :: gs => (c :: g) :: gs
      | [] => [[c]]

/-- Python `str.split(",")`. -/
def pySplitComma (s : String) : List String := (splitCommaChars s.data).map String.mk

/-- Decimal digit value of a character. -/
def digitVal (c : Char) : Option Nat :=
  if '0' ≤ c ∧ c ≤ '9' then some (c.toNat - 48) else none

/-- Left-to-right decimal accumulation; `none` on a non-digit. -/
def parseNatChars : List Char → Nat → Option Nat
  | [], acc => some acc
  | c :: cs, acc => (digitVal c).bind (fun d => parseNatChars cs (acc * 10 + d))

/-- Parse of a nonempty decimal-digit string into a natural number. -/
def pyParseNat (s : String) : Option Nat :=
  match s.data with
  | [] => none
  | cs => parseNatChars cs 0

/-- Python `int(string)`: optional leading minus sign, then decimal digits;
`none` models the `ValueError` raised on an unparsable string. -/
def pyParseInt (s : String) : Option Int :=
  match s.data with
  | '-' :: cs =>
    if cs = [] then none else (parseNatChars cs 0).map (fun n => -(n : Int))
  | _ => (pyParseNat s).map (fun n => (n : Int))

/-- Python `int(value)` on a dict value; `none` models the `ValueError` path
for an unparsable string. -/
def pyToInt : PyVal → Option Int
  | .str s => pyParseInt s
  | .int n => some n
  | .bool b => some (if b then 1 else 0)

/-- `datetime.isoformat()` under the Nat timestamp model: the decimal
rendering of the timestamp (order-isomorphic to real isoformat strings). -/
def isoformat (t : Nat) : String := toString t

/-- `datetime.fromisoformat` under the Nat timestamp model; `none` models the
`ValueError` raised on an unparsable string. -/
def fromisoformat (s : String) : Option Nat := pyParseNat s

/-- A serialized entity: field name to value, as produced by `to_dict` or by
reading a CSV row. -/
def PyDict : Type := List (String × PyVal)

/-- The CSV write-then-read round trip applied to a dict: every value becomes
the string `str(value)`. -/
def csvRow (d : PyDict) : PyDict :=
  d.map (fun kv => (kv.1, .str (pyStr kv.2)))

/-- `Entry.to_dict` (`core/models.py` lines 82-103).  `self.duration_seconds
or ""` yields `""` both for `None` (running) and for a zero duration;
optional strings serialize as `x or ""`; tags are comma-joined; the boolean
fields are stored as Python booleans. -/
def Entry.to_dict (e : Entry) : PyDict :=
  [("id", .str (toString e.id)),
   ("start_time", .str (isoformat e.start_time)),
   ("end_time", .str (match e.end_time with | some t => isoformat t | none => "")),
   ("duration_seconds",
     match e.duration_seconds with
     | some d => if d = 0 then .str "" else .int d
     | none => .str ""),
   ("task_name", .str e.task_name),
   ("project", .str (e.project.getD "")),
   ("category", .str (e.category.getD "")),
   ("tags", .str (String.intercalate "," e.tags)),
   ("notes", .str (e.notes.getD "")),
   ("active_process", .str (e.active_process.getD "")),
   ("active_window", .str (e.active_window.getD "")),
   ("idle_time_seconds", .int e.idle_time_seconds),
   ("manual_entry", .bool e.manual_entry),
   ("edited", .bool e.edited),
   ("auto_tracked", .bool e.auto_tracked),
   ("rule_id", .str (e.rule_id.getD "")),
   ("created_at", .str (isoformat e.created_at)),
   ("updated_at", .str (isoformat e.updated_at))]

/-- Fetch `data[key]` (raising `KeyError`, i.e. `none`, when absent). -/
def dictGet (d : PyDict) (key : String) : Option PyVal := d.lookup key

/-- `data[key] if data[key] else None`: an optional-string field parse. -/
def optStrField (d : PyDict) (key : String) : Option (Option String) :=
  match dictGet d key with
  | none => none
  | some v =>
    if pyTruthy v then
      match v with
      | .str s => some (some s)
      | _ => none
    else some none

/-- Require a string value for `data[key]`. -/
def strField (d : PyDict) (key : String) : Option String :=
  match dictGet d key with
  | some (.str s) => some s
  | _ => none

/-- `datetime.fromisoformat(data[key]) if data[key] else None`: an optional
timestamp field parse. -/
def optTimeField (d : PyDict) (key : String) : Option (Option Nat) :=
  (dictGet d key).bind (fun v =>
    if pyTruthy v then
      match v with
      | .str s => (fromisoformat s).map some
      | _ => none
    else some none)

/-- `bool(data.get(key, False))`: Python truthiness of the stored value (so
the CSV string `"False"` is read back as `True`). -/
def boolField (d : PyDict) (key : String) : Bool :=
  pyTruthy ((dictGet d key).getD (.bool false))

/-- `int(data["idle_time_seconds"]) if data["idle_time_seconds"] else 0`. -/
def idleField (d : PyDict) : Option Nat :=
  (dictGet d "idle_time_seconds").bind (fun v =>
    (if pyTruthy v then pyToInt v else some 0).bind Int.toNat')

/-- `datetime.fromisoformat(data[key])`: a required timestamp field parse. -/
def timeField (d : PyDict) (key : String) : Option Nat :=
  (strField d key).bind fromisoformat

/-- `data[key] if data.get(key) else None`: like `optStrField` but a missing
key yields `None` instead of raising (used for `rule_id`). -/
def optStrFieldGet (d : PyDict) (key : String) : Option (Option String) :=
  match dictGet d key with
  | none => some none
  | some v =>
    if pyTruthy v then
      match v with
      | .str s => some (some s)
      | _ => none
    else some none

/-- `Entry.from_dict` (`core/models.py` lines 105-126).  Of note:
`manual_entry` / `edited` / `auto_tracked` are read as
`bool(data.get(key, False))`, i.e. Python truthiness of the stored value, so
the CSV string `"False"` parses as `True`; tags are split on commas,
stripped, and empty pieces dropped; `idle_time_seconds` falls back to 0 when
falsy.  `none` models a raised parse error. -/
def Entry.from_dict (d : PyDict) : Option Entry :=
  match (strField d "id").bind pyParseNat, timeField d "start_time",
        optTimeField d "end_time", strField d "task_name",
        optStrField d "project", optStrField d "category",
        strField d "tags", optStrField d "notes",
        optStrField d "active_process", optStrField d "active_window",
        idleField d, optStrFieldGet d "rule_id",
        timeField d "created_at", timeField d "updated_at" with
  | some idN, some start_time, some end_time, some task_name, some project,
    some category, some tagsStr, some notes, some active_process,
    some active_window, some idleN, some rule_id, some created_at,
    some updated_at =>
    some { task_name := task_name, start_time := start_time, id := idN,
           end_time := end_time, project := project, category := category,
           tags := ((pySplitComma tagsStr).map pyStrip).filter (fun t => t ≠ ""),
           notes := notes, active_process := active_process,
           active_window := active_window, idle_time_seconds := idleN,
           manual_entry := boolField d "manual_entry",
           edited := boolField d "edited",
           auto_tracked := boolField d "auto_tracked",
           rule_id := rule_id,
           created_at := created_at, updated_at := updated_at }
  | _, _, _, _, _, _, _, _, _, _, _, _, _, _ => none

/-! ### Operation sequences for the single-active-entry invariant -/

/-- One tracker call, with the nondeterministic inputs (`datetime.now()`,
`uuid4()`) carried as data. -/
inductive TrackerOp where
  | start (task_name : String) (project category : Option String)
      (tags : Option (List String)) (notes : Option String) (now newId : Nat)
  | stop (notes : Option String) (now : Nat)
  | switch (task_name : String) (project category : Option String)
      (tags : Option (List String)) (notes : Option String)
      (now₁ now₂ newId : Nat)

/-- The storage state after one tracker call (a raised error leaves the state
the call produced up to the raise: `start`/`stop` leave it unchanged,
`switch` keeps a successful inner `stop`). -/
def stepOp (s : List Entry) : TrackerOp → List Entry
  | .start task_name project category tags notes now newId =>
    (TimeTracker.start s task_name project category tags notes now newId).2
  | .stop notes now => (TimeTracker.stop s notes now).2
  | .switch task_name project category tags notes now₁ now₂ newId =>
    (TimeTracker.switch s task_name project category tags notes now₁ now₂ newId).2

/-- The storage state after a sequence of tracker calls. -/
def runOps (s : List Entry) : List TrackerOp → List Entry
  | [] => s
  | op :: ops => runOps (stepOp s op) ops

/-- Number of running entries (entries with `end_time = None`) in storage. -/
def runningCount (s : List Entry) : Nat := s.countP Entry.is_running

/-! ### Spec-side description of `get_entries` (for the refinement claim C8)

`specGetEntries` is written from the claim's words, not from the source: sort
all entries by `start_time` descending, keep at most `limit` of them, then
filter by exact `project`/`category` equality and inclusive `start_time`
bounds. -/

/-- Modelled from the spec: exact equality on a provided project filter. -/
def specProj (project : Option String) (e : Entry) : Bool :=
  match project with | some p => e.project == some p | none => true

/-- Modelled from the spec: exact equality on a provided category filter. -/
def specCat (category : Option String) (e : Entry) : Bool :=
  match category with | some c => e.category == some c | none => true

/-- Modelled from the spec: inclusive lower bound on `start_time`. -/
def specAfter (start_date : Option Nat) (e : Entry) : Bool :=
  match start_date with | some d => decide (d ≤ e.start_time) | none => true

/-- Modelled from the spec: inclusive upper bound on `start_time`. -/
def specBefore (end_date : Option Nat) (e : Entry) : Bool :=
  match end_date with | some d => decide (e.start_time ≤ d) | none => true

/-- Modelled from the spec: C8's per-entry filter — exact equality on a
provided project/category and inclusive `start_time` bounds. -/
def specKeeps (project category : Option String)
    (start_date end_date : Option Nat) (e : Entry) : Bool :=
  specProj project e && specCat category e &&
    specAfter start_date e && specBefore end_date e

/-- Modelled from the spec: the C8 description of `get_entries` — load at
most `limit` entries sorted most-recent-first, then apply exact-equality and
inclusive-bound filters. -/
def specGetEntries (s : List Entry) (limit : Option Nat)
    (project category : Option String)
    (start_date end_date : Option Nat) : List Entry :=
  let sorted := s.insertionSort entryDescLe
  let rows := match limit with
    | some l => sorted.take l
    | none => sorted
  rows.filter (specKeeps project category start_date end_date)

/-- Repeated `learn_rule` calls with the same process name and initial
confidence (the spec's "repeatedly calling learn_rule on the same process
name"); `uuid4` is irrelevant after the first call, which creates the rule. -/
def iterLearn (pn tn : String) (c : Rat) : RuleEngineState → Nat → RuleEngineState
  | s, 0 => s
  | s, n + 1 => iterLearn pn tn c (learnRule s pn tn none none none c 0).2 n

/-! ### Concrete instances used by witnesses and counterexamples -/

/-- A search function that always matches: the behavior of `re.search` for
the pattern `""` (or `".*"`), which matches every string including the empty
string. -/
def reAlways : ReSearch := fun _ _ => .ok true

/-- A search function that always raises: the behavior of `re.search` for an
uncompilable pattern such as `"["` (`re.error`). -/
def reInvalid : ReSearch := fun _ _ => .error ()

/-- A literal-pattern search function: the behavior of `re.search` on
patterns without regex metacharacters, restricted to full-string comparison
of already-lowercase inputs. -/
def reLiteralEq : ReSearch := fun p n => .ok (p == n)

/-- An enabled explicit (non-learned) rule whose empty pattern matches every
process name. -/
def c3Rule : ProcessRule := { pattern := "", task_name := "T", id := 1 }

/-- An explicit rule matching the process name `"code"`. -/
def explicitRule : ProcessRule := { pattern := "code", task_name := "Dev", id := 1 }

/-- A learned rule also matching `"code"`, with maximal confidence and a huge
match count. -/
def learnedRule : ProcessRule :=
  { pattern := "code", task_name := "Auto", id := 2, learned := true,
    confidence := 1, match_count := 1000 }

/-- A completed entry used for the serialization and `get_entries` claims
(`manual_entry`, `edited`, `auto_tracked` all `False`). -/
def sampleEntry : Entry :=
  { task_name := "t", start_time := 1, id := 7, end_time := some 3,
    created_at := 1, updated_at := 1 }

/-- A second completed entry, more recent and carrying a project. -/
def sampleEntry2 : Entry :=
  { task_name := "u", start_time := 5, id := 8, end_time := some 6,
    project := some "p", created_at := 5, updated_at := 5 }

/-- A still-running entry. -/
def runningEntry : Entry :=
  { task_name := "r", start_time := 2, id := 9, end_time := none }

/-- A `StorageManager` data directory in which all four collection files
exist. -/
def allFourFiles : DataFiles :=
  { entries_file := some "entries-rows", projects_file := some "projects-rows",
    categories_file := some "categories-rows", rules_file := some "rules-rows" }

/-- A store in which the most recent entry has no project and an older entry
belongs to project `"p"`: `get_entries(limit=1, project="p")` loads only the
most recent entry and then filters it away, returning fewer rows than the
unlimited scan. -/
def underReturnStore : List Entry :=
  [{ task_name := "newest", start_time := 10, id := 1 },
   { task_name := "older", start_time := 1, id := 2, project := some "p" }]

/-- The empty rule store with an unpopulated cache (a fresh engine). -/
def learnState0 : RuleEngineState := { rules := [], cache := none }

/-- The learned rule created by `learn_rule("slack", "Chat", confidence=0.8)`
on a fresh engine. -/
def slackRule : ProcessRule :=
  { pattern := "slack", task_name := "Chat", id := 21, learned := true,
    confidence := 8/10 }

/-- Engine state after that first `learn_rule` call. -/
def learnState1 : RuleEngineState :=
  (learnRule learnState0 "slack" "Chat" none none none (8/10) 21).2

/-! ### Helper lemmas -/

theorem mem_saveById_self {α : Type} (getId : α → Nat) (l : List α) (r : α) :
    r ∈ saveById getId l r := by
  induction l with
  | nil => simp [saveById]
  | cons x xs ih =>
    simp only [saveById]
    by_cases h : getId x = getId r
    · simp [h]
    · simp [h, ih]

theorem mem_saveById {α : Type} (getId : α → Nat) {l : List α} {r a : α}
    (ha : a ∈ saveById getId l r) : a = r ∨ a ∈ l := by
  induction l with
  | nil => simpa [saveById] using ha
  | cons x xs ih =>
    simp only [saveById] at ha
    by_cases h : getId x = getId r
    · simp only [if_pos h, List.mem_cons] at ha
      rcases ha with h1 | h1
      · exact Or.inl h1
      · exact Or.inr (List.mem_cons_of_mem x h1)
    · simp only [if_neg h, List.mem_cons] at ha
      rcases ha with h1 | h1
      · exact Or.inr (h1 ▸ List.mem_cons_self x xs)
      · rcases ih h1 with h2 | h2
        · exact Or.inl h2
        · exact Or.inr (List.mem_cons_of_mem x h2)

theorem countP_saveById_le {α : Type} (getId : α → Nat) (p : α → Bool)
    (l : List α) (r : α) :
    (saveById getId l r).countP p ≤ l.countP p + (if p r then 1 else 0) := by
  induction l with
  | nil => simp [saveById, List.countP_cons]
  | cons x xs ih =>
    simp only [saveById]
    by_cases h : getId x = getId r
    · simp only [if_pos h, List.countP_cons]
      by_cases hx : p x <;> by_cases hr : p r <;> simp [hx, hr]
    · simp only [if_neg h, List.countP_cons]
      by_cases hx : p x <;> simp [hx] <;> omega


theorem runningCount_eq_zero_iff (s : List Entry) :
    runningCount s = 0 ↔ ∀ e ∈ s, Entry.is_running e = false := by
  unfold runningCount
  rw [List.countP_eq_zero]
  simp

theorem getCurrentEntry_eq_none_iff (s : List Entry) :
    getCurrentEntry s = none ↔ runningCount s = 0 := by
  unfold getCurrentEntry loadEntries
  rw [List.find?_eq_none, runningCount_eq_zero_iff]
  constructor
  · intro h e he
    have := h e ((List.mem_insertionSort entryDescLe).mpr he)
    simpa using this
  · intro h e he
    have := h e ((List.mem_insertionSort entryDescLe).mp he)
    simp [this]

theorem getCurrentEntry_isSome_iff (s : List Entry) :
    (getCurrentEntry s).isSome = true ↔ ∃ e ∈ s, Entry.is_running e = true := by
  unfold getCurrentEntry loadEntries
  rw [List.find?_isSome]
  constructor
  · rintro ⟨e, he, hr⟩
    exact ⟨e, (List.mem_insertionSort entryDescLe).mp he, hr⟩
  · rintro ⟨e, he, hr⟩
    exact ⟨e, (List.mem_insertionSort entryDescLe).mpr he, hr⟩

theorem head_filter_eq_find {α : Type} (p : α → Bool) (l : List α) :
    (l.filter p).head? = l.find? p := by
  induction l with
  | nil => rfl
  | cons x xs ih =>
    by_cases h : p x <;> simp [List.filter_cons, List.find?_cons, h, ih]

theorem runningCount_start_le (s : List Entry) (task_name : String)
    (project category : Option String) (tags : Option (List String))
    (notes : Option String) (now newId : Nat) (h : runningCount s ≤ 1) :
    runningCount (TimeTracker.start s task_name project category tags notes now newId).2 ≤ 1 := by
  unfold TimeTracker.start
  cases hc : getCurrentEntry s with
  | some c => simpa using h
  | none =>
    have h0 : runningCount s = 0 := (getCurrentEntry_eq_none_iff s).mp hc
    simp only [saveEntry]
    calc (saveById Entry.id s _).countP Entry.is_running
        ≤ s.countP Entry.is_running + (if Entry.is_running _ then 1 else 0) :=
          countP_saveById_le _ _ _ _
      _ ≤ 1 := by
          have : s.countP Entry.is_running = 0 := h0
          rw [this]
          split <;> omega

theorem runningCount_stop_le (s : List Entry) (notes : Option String)
    (now : Nat) (h : runningCount s ≤ 1) :
    runningCount (TimeTracker.stop s notes now).2 ≤ 1 := by
  unfold TimeTracker.stop
  cases hc : getCurrentEntry s with
  | none => simpa using h
  | some current =>
    simp only [saveEntry]
    calc (saveById Entry.id s _).countP Entry.is_running
        ≤ s.countP Entry.is_running +
            (if Entry.is_running { current with
                end_time := some now,
                notes := match notes with
                  | some n => if n = "" then current.notes else some n
                  | none => current.notes,
                updated_at := now } then 1 else 0) :=
          countP_saveById_le _ _ _ _
      _ ≤ 1 := by
          simp only [Entry.is_running, Option.isNone_some, if_false]
          simpa [runningCount] using h

theorem switch_snd_eq (s : List Entry) (task_name : String)
    (project category : Option String) (tags : Option (List String))
    (notes : Option String) (now₁ now₂ newId : Nat) :
    (TimeTracker.switch s task_name project category tags notes now₁ now₂ newId).2 =
      (TimeTracker.start (TimeTracker.stop s none now₁).2 task_name project
        category tags notes now₂ newId).2 := by
  unfold TimeTracker.switch
  rcases hs : TimeTracker.start (TimeTracker.stop s none now₁).2 task_name
      project category tags notes now₂ newId with ⟨r, s₂⟩
  cases r <;> simp [hs]

theorem runningCount_stepOp_le (s : List Entry) (op : TrackerOp)
    (h : runningCount s ≤ 1) : runningCount (stepOp s op) ≤ 1 := by
  cases op with
  | start task_name project category tags notes now newId =>
    exact runningCount_start_le s task_name project category tags notes now newId h
  | stop notes now => exact runningCount_stop_le s notes now h
  | switch task_name project category tags notes now₁ now₂ newId =>
    show runningCount (TimeTracker.switch s task_name project category tags
      notes now₁ now₂ newId).2 ≤ 1
    rw [switch_snd_eq]
    exact runningCount_start_le _ task_name project category tags notes now₂
      newId (runningCount_stop_le s none now₁ h)

/-! ### Claim theorems -/

/-- C1: for every finite sequence of `start`, `stop` and `switch` calls on a
single-threaded tracker whose storage begins with at most one running entry,
at every observation point at most one stored entry has `end_time = None`.
(Stated via `runOps`, so the bound holds after every prefix of the sequence:
any observation point is the end of some prefix.) -/
theorem c1_single_active_entry (s : List Entry) (ops : List TrackerOp)
    (h : runningCount s ≤ 1) : runningCount (runOps s ops) ≤ 1 := by
  induction ops generalizing s with
  | nil => exact h
  | cons op ops ih => exact ih (stepOp s op) (runningCount_stepOp_le s op h)

/-- Witness for C1 at a concrete input: from empty storage, run
`start; switch; stop`; the invariant holds. -/
theorem c1_single_active_entry_witness :
    runningCount [] ≤ 1 ∧
      runningCount (runOps []
        [TrackerOp.start "Write spec" none none none none 1 11,
         TrackerOp.switch "B" none none none none 2 3 12,
         TrackerOp.stop none 4]) ≤ 1 :=
  ⟨by decide, c1_single_active_entry []
    [TrackerOp.start "Write spec" none none none none 1 11,
     TrackerOp.switch "B" none none none none 2 3 12,
     TrackerOp.stop none 4] (by decide)⟩

/-- C6: `start` raises `AlreadyTracking` exactly when some stored entry is
running and `stop` raises `NotTracking` exactly when none is; in both error
cases the stored entry collection is returned unchanged. -/
theorem c6_error_cases_no_state_change (s : List Entry) (task_name : String)
    (project category : Option String) (tags : Option (List String))
    (notes notes' : Option String) (now now' newId : Nat) :
    ((∃ e ∈ s, e.end_time = none) →
      TimeTracker.start s task_name project category tags notes now newId =
        (.error .alreadyTracking, s)) ∧
    ((∀ e ∈ s, e.end_time ≠ none) →
      TimeTracker.stop s notes' now' = (.error .notTracking, s)) := by
  constructor
  · rintro ⟨e, he, hrun⟩
    have hsome : (getCurrentEntry s).isSome = true :=
      (getCurrentEntry_isSome_iff s).mpr ⟨e, he, by simp [Entry.is_running, hrun]⟩
    rcases Option.isSome_iff_exists.mp hsome with ⟨c, hc⟩
    unfold TimeTracker.start
    rw [hc]
  · intro hall
    have hnone : getCurrentEntry s = none := by
      rw [getCurrentEntry_eq_none_iff, runningCount_eq_zero_iff]
      intro e he
      have := hall e he
      simp [Entry.is_running]
      cases het : e.end_time with
      | none => exact absurd het (hall e he)
      | some t => simp
    unfold TimeTracker.stop
    rw [hnone]

/-- Witness for C6 at concrete inputs: with a running entry stored, `start`
fails with `AlreadyTracking` leaving storage unchanged; with no running
entry, `stop` fails with `NotTracking` leaving storage unchanged. -/
theorem c6_error_cases_no_state_change_witness :
    (TimeTracker.start [runningEntry] "A" none none none none 5 13 =
      (.error .alreadyTracking, [runningEntry])) ∧
    (TimeTracker.stop [sampleEntry] none 5 =
      (.error .notTracking, [sampleEntry])) :=
  ⟨(c6_error_cases_no_state_change [runningEntry] "A" none none none none
      none 5 5 13).1 ⟨runningEntry, by decide, by decide⟩,
   (c6_error_cases_no_state_change [sampleEntry] "A" none none none none
      none 5 5 13).2 (by decide)⟩

/-- C7: `add_manual_entry` with `end_time ≤ start_time` raises
`InvalidRange` before any write (storage is returned unchanged); with
`end_time > start_time` it returns a completed `manual_entry = True` entry
and persists it — with no hypothesis on the tracking state (the success case
holds for every stored collection `s`, running entry or not). -/
theorem c7_add_manual_entry (s : List Entry) (task_name : String)
    (start_time end_time : Nat) (project category : Option String)
    (tags : Option (List String)) (notes : Option String) (now newId : Nat) :
    (end_time ≤ start_time →
      TimeTracker.add_manual_entry s task_name start_time end_time project
        category tags notes now newId = (.error .invalidRange, s)) ∧
    (start_time < end_time →
      ∃ e, (TimeTracker.add_manual_entry s task_name start_time end_time
              project category tags notes now newId).1 = .ok e ∧
        e.manual_entry = true ∧ e.end_time = some end_time ∧
        e.task_name = task_name ∧ e.start_time = start_time ∧
        e ∈ (TimeTracker.add_manual_entry s task_name start_time end_time
              project category tags notes now newId).2) := by
  constructor
  · intro h
    unfold TimeTracker.add_manual_entry
    rw [if_pos h]
  · intro h
    unfold TimeTracker.add_manual_entry
    rw [if_neg (by omega)]
    refine ⟨_, rfl, rfl, rfl, rfl, rfl, ?_⟩
    exact mem_saveById_self _ _ _

/-- Witness for C7 at concrete inputs: a 09:00–08:00 manual entry raises
`InvalidRange` with storage untouched, and a 08:00–09:00 manual entry
succeeds as a persisted completed manual entry. -/
theorem c7_add_manual_entry_witness :
    (TimeTracker.add_manual_entry [sampleEntry] "Past work" 9 8 none none
        none none 10 14 = (.error .invalidRange, [sampleEntry])) ∧
    (∃ e, (TimeTracker.add_manual_entry [runningEntry] "Past work" 8 9 none
            none none none 10 14).1 = .ok e ∧
      e.manual_entry = true ∧ e.end_time = some 9 ∧
      e.task_name = "Past work" ∧ e.start_time = 8 ∧
      e ∈ (TimeTracker.add_manual_entry [runningEntry] "Past work" 8 9 none
            none none none 10 14).2) :=
  ⟨(c7_add_manual_entry [sampleEntry] "Past work" 9 8 none none none none
      10 14).1 (by decide),
   (c7_add_manual_entry [runningEntry] "Past work" 8 9 none none none none
      10 14).2 (by decide)⟩

/-- C10: `match_process` with an empty process name returns `None` and
leaves the engine untouched, for every rule state and every search function —
in particular also when an enabled rule's pattern matches the empty string
(take `re := reAlways`, the behavior of a match-anything pattern). -/
theorem c10_match_process_empty_name (re : ReSearch) (s : RuleEngineState) :
    matchProcess re s "" = (none, s) := by
  simp [matchProcess]

/-- C9: `ProcessRule.matches` is total (it returns a `Bool` for every search
outcome): when the pattern fails to compile (`re.search` raises `re.error`),
it returns `false` instead of propagating, and when the search succeeds it
returns the search result. -/
theorem c9_matches_invalid_pattern (re : ReSearch) (r : ProcessRule)
    (process_name : String) :
    (∀ err, re r.pattern process_name = .error err →
      r.matches re process_name = false) ∧
    (∀ b, re r.pattern process_name = .ok b →
      r.matches re process_name = b) := by
  constructor
  · intro err h
    simp [ProcessRule.matches, h]
  · intro b h
    simp [ProcessRule.matches, h]

/-- Witness for C9 at concrete inputs: under a search function that raises
(an uncompilable pattern such as `"["`), `matches` returns `false`; under a
successful search it returns the search's result. -/
theorem c9_matches_invalid_pattern_witness :
    c3Rule.matches reInvalid "chrome" = false ∧
    explicitRule.matches reLiteralEq "code" = true :=
  ⟨(c9_matches_invalid_pattern reInvalid c3Rule "chrome").1 () rfl,
   (c9_matches_invalid_pattern reLiteralEq explicitRule "code").2 true rfl⟩

/-- C5 evaluated at the failing input: with all four collection files
present, `backup` copies `entries.csv`, `projects.csv` and `categories.csv`
but not `rules.csv` — the source's copy loop omits `self.rules_file`, while
its own docstring says "Create backup of all data files". -/
theorem c5_backup_omits_rules_file :
    allFourFiles.rules_file.isSome = true ∧
    (backupFiles allFourFiles).map Prod.fst =
      ["entries.csv", "projects.csv", "categories.csv"] ∧
    "rules.csv" ∉ (backupFiles allFourFiles).map Prod.fst := by decide

/-- C2 evaluated at the failing input: for `sampleEntry` (all three boolean
fields `False`) the plain dict round trip is exact, but reading back through
the CSV string representation — where `csv.DictWriter` stores `str(False) =
"False"` and `from_dict` applies `bool` to the non-empty string — flips
`manual_entry`, `edited` and `auto_tracked` to `True`. -/
theorem c2_csv_round_trip_flips_false_booleans :
    Entry.from_dict (Entry.to_dict sampleEntry) = some sampleEntry ∧
    sampleEntry.manual_entry = false ∧
    (Entry.from_dict (csvRow (Entry.to_dict sampleEntry))).map
        Entry.manual_entry = some true := by
  refine ⟨by decide, by decide, by decide⟩

theorem learnRule_confidence_le (s : RuleEngineState) (pn tn : String)
    (project category : Option String) (tags : Option (List String))
    (c : Rat) (newId : Nat) (hc : c ≤ 1)
    (hall : ∀ r ∈ s.rules, r.confidence ≤ 1) :
    ∀ r ∈ (learnRule s pn tn project category tags c newId).2.rules,
      r.confidence ≤ 1 := by
  intro r hr
  cases hfind : s.rules.find? (fun r => r.learned && r.pattern == pn) with
  | some ex =>
    simp only [learnRule, hfind, saveRule] at hr
    rcases mem_saveById _ hr with h1 | h1
    · subst h1
      exact min_le_left _ _
    · exact hall r h1
  | none =>
    simp only [learnRule, hfind, saveRule] at hr
    rcases mem_saveById _ hr with h1 | h1
    · subst h1
      exact hc
    · exact hall r h1

theorem iterLearn_confidence_le (pn tn : String) (c : Rat) (hc : c ≤ 1)
    (n : Nat) (s : RuleEngineState) (hall : ∀ r ∈ s.rules, r.confidence ≤ 1) :
    ∀ r ∈ (iterLearn pn tn c s n).rules, r.confidence ≤ 1 := by
  induction n generalizing s with
  | zero => exact hall
  | succ n ih =>
    exact ih _ (learnRule_confidence_le s pn tn none none none c 0 hc hall)

/-- C4: `learn_rule` with an existing learned rule of exactly-equal pattern
updates its task/project/category/tags, sets `confidence = min(1.0,
confidence + 0.1)`, increments `match_count` and persists it; otherwise it
creates a learned rule with the given confidence and `match_count = 0`.
Consequently repeated `learn_rule` calls on the same process name, starting
from a confidence in `[0, 1]` and a store whose confidences are within
bounds, never produce a stored confidence above 1. -/
theorem c4_learn_rule (s : RuleEngineState) (pn tn : String)
    (project category : Option String) (tags : Option (List String))
    (c : Rat) (newId : Nat) :
    (∀ ex, s.rules.find? (fun r => r.learned && r.pattern == pn) = some ex →
      (learnRule s pn tn project category tags c newId).1.task_name = tn ∧
      (learnRule s pn tn project category tags c newId).1.project = project ∧
      (learnRule s pn tn project category tags c newId).1.category = category ∧
      (learnRule s pn tn project category tags c newId).1.tags = tags.getD [] ∧
      (learnRule s pn tn project category tags c newId).1.confidence =
        min 1 (ex.confidence + 1/10) ∧
      (learnRule s pn tn project category tags c newId).1.match_count =
        ex.match_count + 1 ∧
      (learnRule s pn tn project category tags c newId).1.learned = true ∧
      (learnRule s pn tn project category tags c newId).1 ∈
        (learnRule s pn tn project category tags c newId).2.rules) ∧
    (s.rules.find? (fun r => r.learned && r.pattern == pn) = none →
      (learnRule s pn tn project category tags c newId).1.confidence = c ∧
      (learnRule s pn tn project category tags c newId).1.match_count = 0 ∧
      (learnRule s pn tn project category tags c newId).1.learned = true ∧
      (learnRule s pn tn project category tags c newId).1.pattern = pn ∧
      (learnRule s pn tn project category tags c newId).1 ∈
        (learnRule s pn tn project category tags c newId).2.rules) ∧
    (0 ≤ c → c ≤ 1 → (∀ r ∈ s.rules, r.confidence ≤ 1) →
      ∀ n, ∀ r ∈ (iterLearn pn tn c s n).rules, r.confidence ≤ 1) := by
  refine ⟨?_, ?_, ?_⟩
  · intro ex hfind
    have hlearned := List.find?_some hfind
    simp only [Bool.and_eq_true, beq_iff_eq] at hlearned
    simp only [learnRule, hfind, saveRule]
    exact ⟨trivial, trivial, trivial, trivial, trivial, trivial, hlearned.1,
      mem_saveById_self _ _ _⟩
  · intro hfind
    simp only [learnRule, hfind, saveRule]
    exact ⟨trivial, trivial, trivial, trivial, mem_saveById_self _ _ _⟩
  · intro _ hc hall n
    exact iterLearn_confidence_le pn tn c hc n s hall

/-- Witness for C4 at concrete inputs: `learn_rule("slack", "Chat",
confidence=0.8)` twice on a fresh engine — the second call finds the rule
created by the first, yields confidence `min(1.0, 0.8 + 0.1)` and match
count 1, and persists it; and iterating `learn_rule` with confidence 1 keeps
every stored confidence at most 1. -/
theorem c4_learn_rule_witness :
    (learnState1.rules.find? (fun r => r.learned && r.pattern == "slack") =
      some slackRule) ∧
    ((learnRule learnState1 "slack" "Chat" none none none (8/10) 22).1.confidence =
        min 1 (slackRule.confidence + 1/10) ∧
      (learnRule learnState1 "slack" "Chat" none none none (8/10) 22).1.match_count =
        slackRule.match_count + 1 ∧
      (learnRule learnState1 "slack" "Chat" none none none (8/10) 22).1 ∈
        (learnRule learnState1 "slack" "Chat" none none none (8/10) 22).2.rules) ∧
    ((0:Rat) ≤ 1 ∧ (1:Rat) ≤ 1) ∧
    (∀ r ∈ (iterLearn "slack" "Chat" 1 learnState0 3).rules, r.confidence ≤ 1) := by
  have hfind : learnState1.rules.find?
      (fun r => r.learned && r.pattern == "slack") = some slackRule := rfl
  have h1 := (c4_learn_rule learnState1 "slack" "Chat" none none none (8/10)
    22).1 slackRule hfind
  refine ⟨hfind, ⟨h1.2.2.2.2.1, h1.2.2.2.2.2.1, h1.2.2.2.2.2.2.2⟩,
    ⟨by decide, by decide⟩, ?_⟩
  exact (c4_learn_rule learnState0 "slack" "Chat" none none none 1 23).2.2
    (by decide) (by decide) (by simp [learnState0]) 3

theorem proj_factor (project : Option String) (hp : project ≠ some "")
    (e : Entry) :
    (!(truthyStr project && e.project ≠ project)) = specProj project e := by
  cases project with
  | none => simp [truthyStr, specProj]
  | some p =>
    have hne : ¬p = "" := fun h => hp (by rw [h])
    by_cases hep : e.project = some p <;> simp [truthyStr, specProj, hne, hep]

theorem cat_factor (category : Option String) (hc : category ≠ some "")
    (e : Entry) :
    (!(truthyStr category && e.category ≠ category)) = specCat category e := by
  cases category with
  | none => simp [truthyStr, specCat]
  | some c =>
    have hne : ¬c = "" := fun h => hc (by rw [h])
    by_cases hec : e.category = some c <;> simp [truthyStr, specCat, hne, hec]

theorem after_factor (sd : Option Nat) (e : Entry) :
    (!(match sd with | some d => decide (e.start_time < d) | none => false)) =
      specAfter sd e := by
  cases sd with
  | none => simp [specAfter]
  | some d =>
    unfold specAfter
    rw [← decide_not]
    simp only [decide_eq_decide]
    omega

theorem before_factor (ed : Option Nat) (e : Entry) :
    (!(match ed with | some d => decide (d < e.start_time) | none => false)) =
      specBefore ed e := by
  cases ed with
  | none => simp [specBefore]
  | some d =>
    unfold specBefore
    rw [← decide_not]
    simp only [decide_eq_decide]
    omega

theorem keepsEntry_eq_spec (project category : Option String)
    (sd ed : Option Nat) (hp : project ≠ some "") (hc : category ≠ some "")
    (e : Entry) :
    keepsEntry project category sd ed e = specKeeps project category sd ed e := by
  unfold keepsEntry specKeeps
  rw [proj_factor project hp, cat_factor category hc, after_factor, before_factor]

/-- C8: corrected claim — for every limit other than `0` and every
project/category filter other than the empty string, `get_entries` equals the
claim's pipeline (sort by `start_time` descending, keep at most `limit`
rows, then filter by exact project/category equality and inclusive
`start_time` bounds); and combining `limit` with filters can return fewer
results than an unlimited scan followed by the same filtering. -/
theorem c8_get_entries_limit_then_filter (s : List Entry) (limit : Option Nat)
    (project category : Option String) (sd ed : Option Nat)
    (hl : limit ≠ some 0) (hp : project ≠ some "") (hc : category ≠ some "") :
    TimeTracker.get_entries s limit project category sd ed =
      specGetEntries s limit project category sd ed ∧
    (TimeTracker.get_entries underReturnStore (some 1) (some "p")
        none none none).length <
      (TimeTracker.get_entries underReturnStore none (some "p")
        none none none).length := by
  constructor
  · have hrows : ∀ rows : List Entry,
        rows.filter (keepsEntry project category sd ed) =
        rows.filter (specKeeps project category sd ed) :=
      fun rows => List.filter_congr
        (fun e _ => keepsEntry_eq_spec project category sd ed hp hc e)
    cases limit with
    | none =>
      simp only [TimeTracker.get_entries, specGetEntries, loadEntries]
      exact hrows _
    | some l =>
      have hl0 : ¬l = 0 := fun h => hl (by rw [h])
      simp only [TimeTracker.get_entries, specGetEntries, loadEntries, if_neg hl0]
      exact hrows _
  · decide

/-- Witness for C8 at concrete inputs: for `limit=2`, `project="p"` on
`underReturnStore`, `get_entries` agrees with the claim's pipeline. -/
theorem c8_get_entries_limit_then_filter_witness :
    ((some 2 : Option Nat) ≠ some 0 ∧ (some "p" : Option String) ≠ some "" ∧
      (none : Option String) ≠ some "") ∧
    (TimeTracker.get_entries underReturnStore (some 2) (some "p") none
        none none =
      specGetEntries underReturnStore (some 2) (some "p") none none none) :=
  ⟨⟨by decide, by decide, by decide⟩,
   (c8_get_entries_limit_then_filter underReturnStore (some 2) (some "p")
      none none none (by decide) (by decide) (by decide)).1⟩

/-- Counterexample for C8 as stated: the claim quantifies over every
combination of arguments, but `load_entries` guards truncation with
`if limit:`, so `limit=0` (falsy in Python) loads all entries instead of at
most 0; likewise `get_entries` guards each filter with the argument's
truthiness, so `project=""` applies no filter instead of exact equality. -/
theorem c8_counterexample :
    TimeTracker.get_entries [sampleEntry2] (some 0) none none none none ≠
      specGetEntries [sampleEntry2] (some 0) none none none none ∧
    TimeTracker.get_entries [sampleEntry2] none (some "") none none none ≠
      specGetEntries [sampleEntry2] none (some "") none none none := by decide

theorem matchProcess_filters (re : ReSearch) (pn : String)
    (rules : List ProcessRule) :
    (((rules.filter (fun r => r.enabled)).filter
        (fun r => r.enabled && r.matches re pn)).filter (fun r => !r.learned) =
      rules.filter (explicitMatch re pn)) ∧
    (((rules.filter (fun r => r.enabled)).filter
        (fun r => r.enabled && r.matches re pn)).filter (fun r => r.learned) =
      rules.filter (learnedMatch re pn)) := by
  constructor <;>
  · rw [List.filter_filter, List.filter_filter]
    apply List.filter_congr
    intro r _
    cases he : r.enabled <;> cases hl : r.learned <;>
      cases hm : r.matches re pn <;>
        simp [explicitMatch, learnedMatch, he, hl, hm]

theorem matchProcess_fst (re : ReSearch) (rules : List ProcessRule)
    (pn : String) (hpn : pn ≠ "") :
    (matchProcess re ⟨rules, none⟩ pn).1 =
      match rules.find? (explicitMatch re pn) with
      | some r => some r
      | none =>
        ((rules.filter (learnedMatch re pn)).insertionSort learnedDescLe).head? := by
  have hml := matchProcess_filters re pn rules
  simp only [matchProcess, if_neg hpn, loadRules, if_pos]
  rw [hml.1, hml.2]
  cases hf : rules.find? (explicitMatch re pn) with
  | some r =>
    have hh : (rules.filter (explicitMatch re pn)).head? = some r := by
      rw [head_filter_eq_find]
      exact hf
    rcases hfe : rules.filter (explicitMatch re pn) with _ | ⟨x, tl⟩
    · rw [hfe] at hh
      simp at hh
    · rw [hfe] at hh
      simp only [List.head?_cons, Option.some.injEq] at hh
      subst hh
      simp
  | none =>
    have hh : (rules.filter (explicitMatch re pn)).head? = none := by
      rw [head_filter_eq_find]
      exact hf
    rw [List.head?_eq_none_iff] at hh
    rw [hh]
    cases ((rules.filter (learnedMatch re pn)).insertionSort learnedDescLe) <;> simp

/-- C3: corrected claim — for every rule collection, search behavior and
NON-EMPTY process name, `match_process` on a fresh engine returns the first
enabled explicit (non-learned) rule in storage order whose pattern matches,
regardless of any learned rule; otherwise some enabled learned matching rule
that is `learnedDescLe`-maximal (highest confidence, ties broken by highest
match count) among all enabled learned matching rules; and `None` when no
enabled rule matches.  (For the empty process name the source returns `None`
unconditionally; see the counterexample.) -/
theorem c3_match_process_priority (re : ReSearch) (rules : List ProcessRule)
    (pn : String) (hpn : pn ≠ "") :
    (∀ r, rules.find? (explicitMatch re pn) = some r →
      (matchProcess re ⟨rules, none⟩ pn).1 = some r) ∧
    (rules.find? (explicitMatch re pn) = none →
      ∀ rl ∈ rules, learnedMatch re pn rl = true →
      ∃ rbest, (matchProcess re ⟨rules, none⟩ pn).1 = some rbest ∧
        rbest ∈ rules ∧ learnedMatch re pn rbest = true ∧
        ∀ r' ∈ rules, learnedMatch re pn r' = true → learnedDescLe rbest r') ∧
    ((∀ r ∈ rules, ¬(r.enabled = true ∧ r.matches re pn = true)) →
      (matchProcess re ⟨rules, none⟩ pn).1 = none) := by
  refine ⟨?_, ?_, ?_⟩
  · intro r hf
    rw [matchProcess_fst re rules pn hpn, hf]
  · intro hf rl hrl hlm
    rw [matchProcess_fst re rules pn hpn, hf]
    have hmem : rl ∈ rules.filter (learnedMatch re pn) :=
      List.mem_filter.mpr ⟨hrl, hlm⟩
    have hsorted : List.Sorted learnedDescLe
        ((rules.filter (learnedMatch re pn)).insertionSort learnedDescLe) :=
      List.sorted_insertionSort learnedDescLe _
    rcases hsl : (rules.filter (learnedMatch re pn)).insertionSort learnedDescLe
        with _ | ⟨b, tl⟩
    · exfalso
      have := (List.mem_insertionSort learnedDescLe
        (l := rules.filter (learnedMatch re pn)) (x := rl)).mpr hmem
      rw [hsl] at this
      simp at this
    · have hbmem : b ∈ rules.filter (learnedMatch re pn) := by
        have : b ∈ (rules.filter (learnedMatch re pn)).insertionSort learnedDescLe := by
          rw [hsl]
          exact List.mem_cons_self b tl
        exact (List.mem_insertionSort learnedDescLe).mp this
      have hbr := List.mem_filter.mp hbmem
      refine ⟨b, rfl, hbr.1, hbr.2, ?_⟩
      intro r' hr' hlm'
      have hr'mem : r' ∈ (rules.filter (learnedMatch re pn)).insertionSort learnedDescLe :=
        (List.mem_insertionSort learnedDescLe).mpr
          (List.mem_filter.mpr ⟨hr', hlm'⟩)
      rw [hsl] at hr'mem hsorted
      rcases List.mem_cons.mp hr'mem with h | h
      · subst h
        rcases IsTotal.total (r := learnedDescLe) r' r' with h | h <;> exact h
      · exact ((List.pairwise_cons.mp hsorted).1 r' h)
  · intro hall
    have hf : rules.find? (explicitMatch re pn) = none := by
      rw [List.find?_eq_none]
      intro r hr hx
      rw [explicitMatch, Bool.and_eq_true, Bool.and_eq_true] at hx
      exact hall r hr ⟨hx.1.1, hx.2⟩
    rw [matchProcess_fst re rules pn hpn, hf]
    have hfe : rules.filter (learnedMatch re pn) = [] := by
      rw [List.filter_eq_nil_iff]
      intro r hr hx
      rw [learnedMatch, Bool.and_eq_true, Bool.and_eq_true] at hx
      exact hall r hr ⟨hx.1.1, hx.2⟩
    rw [hfe]
    simp

/-- Witness for C3 at concrete inputs: with a learned rule (confidence 1,
match count 1000) stored BEFORE an explicit rule, both matching `"code"`,
`match_process` returns the explicit rule; and with only the learned rule
stored it returns that learned rule as the maximal learned match. -/
theorem c3_match_process_priority_witness :
    (("code" : String) ≠ "" ∧
      [learnedRule, explicitRule].find? (explicitMatch reLiteralEq "code") =
        some explicitRule) ∧
    (matchProcess reLiteralEq ⟨[learnedRule, explicitRule], none⟩ "code").1 =
      some explicitRule ∧
    (∃ rbest,
      (matchProcess reLiteralEq ⟨[learnedRule], none⟩ "code").1 = some rbest ∧
      rbest ∈ [learnedRule] ∧ learnedMatch reLiteralEq "code" rbest = true ∧
      ∀ r' ∈ [learnedRule], learnedMatch reLiteralEq "code" r' = true →
        learnedDescLe rbest r') := by
  have hpn : ("code" : String) ≠ "" := by decide
  have hfind : [learnedRule, explicitRule].find?
      (explicitMatch reLiteralEq "code") = some explicitRule := rfl
  refine ⟨⟨hpn, hfind⟩, ?_, ?_⟩
  · exact (c3_match_process_priority reLiteralEq [learnedRule, explicitRule]
      "code" hpn).1 explicitRule hfind
  · exact (c3_match_process_priority reLiteralEq [learnedRule] "code"
      hpn).2.1 rfl learnedRule (List.mem_cons_self _ _) rfl

/-- Counterexample for C3 as stated: the claim quantifies over EVERY process
name, but `match_process` begins with `if not process_name: return None`, so
for the empty name it returns `None` even though an enabled explicit rule's
pattern matches the empty string (`reAlways` is the search behavior of
`c3Rule`'s empty pattern, which `re.search` matches against every string). -/
theorem c3_counterexample :
    (c3Rule.enabled = true ∧ c3Rule.learned = false ∧
      c3Rule.matches reAlways "" = true) ∧
    (matchProcess reAlways ⟨[c3Rule], none⟩ "").1 = none :=
  ⟨⟨rfl, rfl, rfl⟩, rfl⟩

end TimeAudit
